import Mathlib

/-!
Verification of the 24-hour schedule visualization app (`src/app.py`).

The app keeps a session ledger of recorded activities (pandas DataFrame
`st.session_state.schedule_df` with columns 活動名 / 開始時刻 / 終了時刻 /
所要時間 (分)), lets the user append entries through a sidebar form,
clear the ledger, and renders a reconciled 24-hour breakdown computed by
`get_full_day_schedule`.

Embedding choices:
* A DataFrame row becomes an `Entry`; the ledger is a `List Entry`.
* Times are minutes since midnight (`Nat`, intended range 0–1439),
  matching the minute granularity of `st.time_input` values.
* The form submit handler becomes `add_entry`, returning
  `Except AddError (List Entry)`: `Except.ok` carries the new ledger
  (old ledger with the entry appended), `Except.error` the validation
  error that the handler surfaces (`st.sidebar.error` + `st.stop`).
* pandas `groupby('活動名').sum()` emits one row per distinct name with
  group keys in ascending sorted order (the default `sort=True`), and
  Python compares strings lexicographically by code point, as Mathlib's
  `LinearOrder String` does.  Grouping is therefore embedded as a map
  over the distinct names sorted by `(· ≤ ·)`, each name paired with the
  sum of durations of the entries carrying it.
* The synthetic bucket label is the literal source string "予定なし"
  ("unplanned").
-/

/-- 24時間 = 1440分 (`TOTAL_MINUTES_IN_DAY` in `app.py`). -/
def TOTAL_MINUTES_IN_DAY : Nat := 1440

/-- One row of `schedule_df`: 活動名, 開始時刻, 終了時刻, 所要時間 (分).
Times are minutes since midnight. -/
structure Entry where
  name : String
  start_time : Nat
  end_time : Nat
  duration_minutes : Nat
deriving DecidableEq, Repr

/-- Validation errors surfaced by the form submit handler in `app.py`
(each is an `st.sidebar.error` message after which no row is appended). -/
inductive AddError where
  /-- "活動名を入力してください。" (line 43) -/
  | EmptyName
  /-- "開始時刻と終了時刻が同じか、または不適切な入力です。…" (line 56) -/
  | InvalidInterval
  /-- "活動の所要時間が24時間（1440分）を超えています。" (line 64) -/
  | DurationExceeded
deriving DecidableEq, Repr

/-- The duration computation of lines 46–60 of `app.py`:
`start_dt >= end_dt` (both on today's date) iff `start_time ≥ end_time`;
in that case, when the times differ, one day (1440 minutes) is added to
the end before subtracting, and when they are equal the handler errors
(`none` here).  Otherwise the duration is plain `end - start`. -/
def duration_minutes_of (start_time end_time : Nat) : Option Nat :=
  if start_time ≥ end_time then
    if start_time ≠ end_time then some ((end_time + 1440) - start_time)
    else none
  else some (end_time - start_time)

/-- The form submit handler of lines 41–77 of `app.py`.
`if not activity_name` in Python is true exactly for the empty string,
so only `""` triggers `EmptyName`.  A computed duration above
`TOTAL_MINUTES_IN_DAY` triggers `DurationExceeded` (line 63); otherwise
the new row is concatenated onto the ledger (lines 68–76). -/
def add_entry (activity_name : String) (start_time end_time : Nat)
    (schedule_df : List Entry) : Except AddError (List Entry) :=
  if activity_name = "" then
    Except.error AddError.EmptyName
  else
    match duration_minutes_of start_time end_time with
    | none => Except.error AddError.InvalidInterval
    | some duration_minutes =>
      if duration_minutes > TOTAL_MINUTES_IN_DAY then
        Except.error AddError.DurationExceeded
      else
        Except.ok (schedule_df ++
          [⟨activity_name, start_time, end_time, duration_minutes⟩])

/-- The ledger after a form submission: on a validation error the handler
stops (`st.stop`) before touching `st.session_state.schedule_df`, so the
ledger is unchanged; on success it is the ledger returned by
`add_entry`. -/
def add_entry_state (activity_name : String) (start_time end_time : Nat)
    (schedule_df : List Entry) : List Entry :=
  match add_entry activity_name start_time end_time schedule_df with
  | Except.ok df => df
  | Except.error _ => schedule_df

/-- The clear button handler (lines 168–173 of `app.py`): the ledger is
replaced by an empty DataFrame. -/
def clear_all (_schedule_df : List Entry) : List Entry := []

/-- Total of the 所要時間 (分) column of a ledger
(`df['所要時間 (分)'].sum()`). -/
def totalMinutes (df : List Entry) : Nat :=
  (df.map Entry.duration_minutes).sum

/-- Total of the minutes column of a grouped/summary DataFrame. -/
def sumMinutes (buckets : List (String × Nat)) : Nat :=
  (buckets.map Prod.snd).sum

/-- The distinct activity names of a ledger, as a finite set. -/
def names (df : List Entry) : Finset String :=
  (df.map Entry.name).toFinset

/-- Summed duration of the rows carrying one activity name. -/
def sumFor (n : String) (df : List Entry) : Nat :=
  ((df.filter (fun e => e.name = n)).map Entry.duration_minutes).sum

/-- The distinct activity names in ascending order, as pandas `groupby`
produces its group keys. -/
def sortedNames (df : List Entry) : List String :=
  List.insertionSort (· ≤ ·) (df.map Entry.name).dedup

/-- `df.groupby('活動名')['所要時間 (分)'].sum().reset_index(...)`
(line 91 of `app.py`): one row per distinct name, keys ascending, with
the summed minutes of that name's rows. -/
def groupByName (df : List Entry) : List (String × Nat) :=
  (sortedNames df).map (fun n => (n, sumFor n df))

/-- `get_full_day_schedule` (lines 81–111 of `app.py`): an empty ledger
yields the single synthetic row; otherwise the grouped rows, with a
synthetic "予定なし" row appended when `1440 - recorded` is strictly
positive, and nothing appended when it is zero or negative. -/
def get_full_day_schedule (df : List Entry) : List (String × Nat) :=
  if df = [] then [("予定なし", TOTAL_MINUTES_IN_DAY)]
  else
    let grouped_df := groupByName df
    let recorded_minutes := sumMinutes grouped_df
    let unplanned_minutes : Int :=
      (TOTAL_MINUTES_IN_DAY : Int) - (recorded_minutes : Int)
    if unplanned_minutes < 0 then grouped_df
    else if unplanned_minutes > 0 then
      grouped_df ++ [("予定なし", unplanned_minutes.toNat)]
    else grouped_df

/-- The display branch of lines 125–131 of `app.py`: the overflow flag
is `recorded_minutes > TOTAL_MINUTES_IN_DAY`, recomputed from the raw
ledger. -/
def overflow (df : List Entry) : Bool :=
  totalMinutes df > TOTAL_MINUTES_IN_DAY

/-- The DataFrame actually rendered (lines 127–135 of `app.py`): on
overflow a fresh per-name grouping with no synthetic row, otherwise the
full-day schedule. -/
def display_df (df : List Entry) : List (String × Nat) :=
  if overflow df then
    groupByName df
  else
    get_full_day_schedule df

/-! ### Helper lemmas about grouping -/

lemma sumFor_cons (n : String) (e : Entry) (t : List Entry) :
    sumFor n (e :: t) =
      (if e.name = n then e.duration_minutes else 0) + sumFor n t := by
  by_cases h : e.name = n <;> simp [sumFor, List.filter_cons, h]

lemma sumFor_eq_zero {n : String} {t : List Entry}
    (h : ∀ e ∈ t, e.name ≠ n) : sumFor n t = 0 := by
  have hf : t.filter (fun e => e.name = n) = [] := by
    rw [List.filter_eq_nil_iff]
    intro e he
    simpa using h e he
  simp [sumFor, hf]

lemma mem_names {n : String} {df : List Entry} :
    n ∈ names df ↔ ∃ e ∈ df, e.name = n := by
  simp [names]

lemma sum_names_sumFor (df : List Entry) :
    ∑ n ∈ names df, sumFor n df = totalMinutes df := by
  induction df with
  | nil => simp [names, totalMinutes]
  | cons e t ih =>
    have hnames : names (e :: t) = insert e.name (names t) := by
      simp [names]
    have htail : ∑ n ∈ insert e.name (names t), sumFor n t =
        ∑ n ∈ names t, sumFor n t := by
      by_cases ha : e.name ∈ names t
      · rw [Finset.insert_eq_self.mpr ha]
      · rw [Finset.sum_insert ha, sumFor_eq_zero, zero_add]
        intro x hx hxn
        exact ha (mem_names.mpr ⟨x, hx, hxn⟩)
    calc ∑ n ∈ names (e :: t), sumFor n (e :: t)
        = ∑ n ∈ insert e.name (names t),
            ((if e.name = n then e.duration_minutes else 0) + sumFor n t) := by
          rw [hnames]
          exact Finset.sum_congr rfl (fun n _ => sumFor_cons n e t)
      _ = (∑ n ∈ insert e.name (names t),
            if e.name = n then e.duration_minutes else 0) +
          ∑ n ∈ insert e.name (names t), sumFor n t :=
          Finset.sum_add_distrib
      _ = e.duration_minutes + totalMinutes t := by
          rw [Finset.sum_ite_eq, if_pos (Finset.mem_insert_self _ _), htail, ih]
      _ = totalMinutes (e :: t) := by simp [totalMinutes]

lemma sortedNames_nodup (df : List Entry) : (sortedNames df).Nodup :=
  (List.perm_insertionSort _ _).nodup_iff.mpr (List.nodup_dedup _)

lemma toFinset_sortedNames (df : List Entry) :
    (sortedNames df).toFinset = names df := by
  ext a
  rw [List.mem_toFinset, sortedNames, (List.perm_insertionSort _ _).mem_iff,
    List.mem_dedup, ← List.mem_toFinset, names]

lemma mem_sortedNames {n : String} {df : List Entry} :
    n ∈ sortedNames df ↔ ∃ e ∈ df, e.name = n := by
  rw [← mem_names, ← toFinset_sortedNames, List.mem_toFinset]

lemma sumMinutes_groupByName (df : List Entry) :
    sumMinutes (groupByName df) = totalMinutes df := by
  have h1 : sumMinutes (groupByName df) =
      ((sortedNames df).map (fun n => sumFor n df)).sum := by
    simp [sumMinutes, groupByName, List.map_map, Function.comp_def]
  rw [h1, ← List.sum_toFinset _ (sortedNames_nodup df), toFinset_sortedNames]
  exact sum_names_sumFor df

lemma mem_groupByName {n : String} {m : Nat} {df : List Entry} :
    (n, m) ∈ groupByName df ↔ (∃ e ∈ df, e.name = n) ∧ m = sumFor n df := by
  constructor
  · intro h
    obtain ⟨k, hk, hkm⟩ := List.mem_map.mp h
    obtain ⟨rfl, rfl⟩ := Prod.mk.inj hkm
    exact ⟨mem_sortedNames.mp hk, rfl⟩
  · rintro ⟨he, rfl⟩
    exact List.mem_map.mpr ⟨n, mem_sortedNames.mpr he, rfl⟩

lemma sumMinutes_append (a b : List (String × Nat)) :
    sumMinutes (a ++ b) = sumMinutes a + sumMinutes b := by
  simp [sumMinutes]

/-- Branch structure of `get_full_day_schedule` on a nonempty ledger,
with the recorded total rewritten to the raw ledger total. -/
lemma get_full_day_schedule_spec (df : List Entry) (hdf : df ≠ []) :
    get_full_day_schedule df =
      if 1440 < totalMinutes df then groupByName df
      else if totalMinutes df < 1440 then
        groupByName df ++ [("予定なし", 1440 - totalMinutes df)]
      else groupByName df := by
  unfold get_full_day_schedule
  rw [if_neg hdf]
  simp only [sumMinutes_groupByName, TOTAL_MINUTES_IN_DAY]
  split_ifs with h1 h2 h3 h4 h5 h6 h7 h8 <;>
    first
      | rfl
      | (exfalso; omega)
      | (simp only [List.append_right_inj, List.cons.injEq, Prod.mk.injEq,
          true_and, and_true]
         omega)

/-! ### Invariance under reordering of the ledger -/

lemma totalMinutes_perm {l l' : List Entry} (h : l.Perm l') :
    totalMinutes l = totalMinutes l' :=
  (h.map Entry.duration_minutes).sum_eq

lemma sumFor_perm (n : String) {l l' : List Entry} (h : l.Perm l') :
    sumFor n l = sumFor n l' := by
  unfold sumFor
  exact (List.Perm.sum_eq (List.Perm.map _ (List.Perm.filter _ h)))

lemma sortedNames_perm {l l' : List Entry} (h : l.Perm l') :
    sortedNames l = sortedNames l' := by
  apply List.eq_of_perm_of_sorted (r := (· ≤ ·))
  · exact (List.perm_insertionSort _ _).trans
      (((h.map Entry.name).dedup).trans (List.perm_insertionSort _ _).symm)
  · exact List.sorted_insertionSort _ _
  · exact List.sorted_insertionSort _ _

lemma groupByName_perm {l l' : List Entry} (h : l.Perm l') :
    groupByName l = groupByName l' := by
  unfold groupByName
  rw [sortedNames_perm h]
  have hf : (fun n => (n, sumFor n l)) = (fun n => (n, sumFor n l')) :=
    funext fun n => by rw [sumFor_perm n h]
  rw [hf]

lemma get_full_day_schedule_perm {l l' : List Entry} (h : l.Perm l') :
    get_full_day_schedule l = get_full_day_schedule l' := by
  by_cases hl : l = []
  · subst hl
    rw [h.symm.eq_nil]
  · have hl' : l' ≠ [] := fun e => hl (by rw [e] at h; exact h.eq_nil)
    rw [get_full_day_schedule_spec l hl, get_full_day_schedule_spec l' hl',
      totalMinutes_perm h, groupByName_perm h]

/-! ### Helper lemmas about `add_entry` -/

lemma duration_minutes_of_eq (s e : Nat) (hs : s < 1440) (hne : s ≠ e) :
    duration_minutes_of s e =
      some (if s < e then e - s else (1440 - s) + e) := by
  unfold duration_minutes_of
  by_cases hcase : s ≥ e
  · have hns : ¬ s < e := by omega
    rw [if_pos hcase, if_pos hne, if_neg hns]
    congr 1
    omega
  · have hslt : s < e := by omega
    rw [if_neg hcase, if_pos hslt]

lemma add_entry_ok (name : String) (s e : Nat) (df : List Entry)
    (hn : name ≠ "") (d : Nat) (hd : duration_minutes_of s e = some d)
    (hle : d ≤ TOTAL_MINUTES_IN_DAY) :
    add_entry name s e df = Except.ok (df ++ [⟨name, s, e, d⟩]) := by
  unfold add_entry
  rw [if_neg hn, hd]
  dsimp only
  rw [if_neg (by omega : ¬ d > TOTAL_MINUTES_IN_DAY)]

lemma one_le_sumFor {n : String} {df : List Entry}
    (hpos : ∀ e ∈ df, 1 ≤ e.duration_minutes)
    (he : ∃ e ∈ df, e.name = n) : 1 ≤ sumFor n df := by
  obtain ⟨e, hmem, hname⟩ := he
  have h1 : e ∈ df.filter (fun e => e.name = n) :=
    List.mem_filter.mpr ⟨hmem, by simp [hname]⟩
  have h2 : e.duration_minutes ∈
      (df.filter (fun e => e.name = n)).map Entry.duration_minutes :=
    List.mem_map_of_mem _ h1
  calc 1 ≤ e.duration_minutes := hpos e hmem
    _ ≤ sumFor n df := List.single_le_sum (fun x _ => Nat.zero_le x) _ h2

/-! ### The claims -/

/-- C1: whenever the recorded total is at most 1440 minutes, the summary
sums to exactly 1440; strictly below 1440 the synthetic "予定なし"
("unplanned") bucket of `1440 - total` minutes is appended to the
grouping, and at exactly 1440 nothing is appended. -/
theorem summarize_total_invariant (df : List Entry)
    (h : totalMinutes df ≤ 1440) :
    sumMinutes (get_full_day_schedule df) = 1440 ∧
    (totalMinutes df < 1440 →
      get_full_day_schedule df =
        groupByName df ++ [("予定なし", 1440 - totalMinutes df)]) ∧
    (totalMinutes df = 1440 → get_full_day_schedule df = groupByName df) := by
  by_cases hdf : df = []
  · subst hdf
    decide
  · rw [get_full_day_schedule_spec df hdf,
      if_neg (by omega : ¬ 1440 < totalMinutes df)]
    rcases Nat.lt_or_ge (totalMinutes df) 1440 with hlt | hge
    · rw [if_pos hlt]
      refine ⟨?_, fun _ => rfl, fun he => by omega⟩
      rw [sumMinutes_append, sumMinutes_groupByName]
      simp [sumMinutes]
      omega
    · have heq : totalMinutes df = 1440 := by omega
      rw [if_neg (by omega : ¬ totalMinutes df < 1440)]
      exact ⟨by rw [sumMinutes_groupByName, heq], fun hlt => by omega,
        fun _ => rfl⟩

theorem summarize_total_invariant_witness :
    totalMinutes [⟨"work", 540, 600, 60⟩] ≤ 1440 ∧
    (sumMinutes (get_full_day_schedule [⟨"work", 540, 600, 60⟩]) = 1440 ∧
      (totalMinutes [⟨"work", 540, 600, 60⟩] < 1440 →
        get_full_day_schedule [⟨"work", 540, 600, 60⟩] =
          groupByName [⟨"work", 540, 600, 60⟩] ++
            [("予定なし", 1440 - totalMinutes [⟨"work", 540, 600, 60⟩])]) ∧
      (totalMinutes [⟨"work", 540, 600, 60⟩] = 1440 →
        get_full_day_schedule [⟨"work", 540, 600, 60⟩] =
          groupByName [⟨"work", 540, 600, 60⟩])) :=
  ⟨by decide, summarize_total_invariant [⟨"work", 540, 600, 60⟩] (by decide)⟩

/-- C2: for minute-of-day start/end values with `start ≠ end` and a
non-empty name, `add_entry` appends an entry whose duration is
`end - start` when `start < end` and `(1440 - start) + end` when
`start > end` (day-wrap). -/
theorem add_entry_duration (name : String) (s e : Nat) (df : List Entry)
    (hn : name ≠ "") (hs : s < 1440) (he : e < 1440) (hne : s ≠ e) :
    add_entry name s e df =
      Except.ok (df ++
        [⟨name, s, e, if s < e then e - s else (1440 - s) + e⟩]) := by
  apply add_entry_ok name s e df hn _ (duration_minutes_of_eq s e hs hne)
  unfold TOTAL_MINUTES_IN_DAY
  split_ifs with hcase <;> omega

theorem add_entry_duration_witness :
    add_entry "sleep" 1380 60 [] = Except.ok [⟨"sleep", 1380, 60, 120⟩] := by
  have h := add_entry_duration "sleep" 1380 60 []
    (by decide) (by decide) (by decide) (by decide)
  exact h

/-- C4 counterexample: the whitespace-only name `" "` is NOT rejected:
Python's `if not activity_name` is false on `" "`, so the entry is
appended (the name is blank after trimming, as the conjunct about
`String.toList` records). -/
theorem empty_name_cex :
    (" ").toList = [' '] ∧ (' ').isWhitespace = true ∧
    (" " : String) ≠ "" ∧
    add_entry " " 540 600 [] = Except.ok [⟨" ", 540, 600, 60⟩] ∧
    add_entry_state " " 540 600 [] = [⟨" ", 540, 600, 60⟩] :=
  ⟨rfl, by decide, by decide, rfl, rfl⟩

/-- C4 (amended): exactly the empty name is rejected with `EmptyName`,
leaving the ledger unchanged; a whitespace-only name is accepted. -/
theorem empty_name_rejected (s e : Nat) (df : List Entry) :
    add_entry "" s e df = Except.error AddError.EmptyName ∧
    add_entry_state "" s e df = df :=
  ⟨rfl, rfl⟩

/-- C5 counterexample: with the empty name and equal times the failure
is `EmptyName`, not `InvalidInterval` (the name check runs first). -/
theorem invalid_interval_cex :
    add_entry "" 540 540 [] = Except.error AddError.EmptyName ∧
    (Except.error AddError.EmptyName : Except AddError (List Entry)) ≠
      Except.error AddError.InvalidInterval :=
  ⟨rfl, by simp⟩

/-- C5 (amended): for every NON-EMPTY name, equal start and end times
are rejected with `InvalidInterval` and the ledger is unchanged,
regardless of the common time value. -/
theorem invalid_interval_rejected (name : String) (t : Nat)
    (df : List Entry) (hn : name ≠ "") :
    add_entry name t t df = Except.error AddError.InvalidInterval ∧
    add_entry_state name t t df = df := by
  have h : add_entry name t t df = Except.error AddError.InvalidInterval := by
    unfold add_entry duration_minutes_of
    rw [if_neg hn, if_pos (le_refl t), if_neg (by omega : ¬ t ≠ t)]
  exact ⟨h, by unfold add_entry_state; rw [h]⟩

theorem invalid_interval_rejected_witness :
    ("x" : String) ≠ "" ∧
    (add_entry "x" 540 540 [] = Except.error AddError.InvalidInterval ∧
      add_entry_state "x" 540 540 [] = []) :=
  ⟨by decide, invalid_interval_rejected "x" 540 [] (by decide)⟩

/-- C7: on the empty ledger — freshly created or freshly cleared — the
summary is exactly `[("予定なし", 1440)]` and the overflow flag is
false. -/
theorem summarize_empty :
    get_full_day_schedule [] = [("予定なし", 1440)] ∧
    (∀ df : List Entry,
      get_full_day_schedule (clear_all df) = [("予定なし", 1440)]) ∧
    overflow [] = false :=
  ⟨by decide, fun df => by rw [show clear_all df = [] from rfl]; decide,
    by decide⟩

/-- C9: the clear button resets any ledger to the empty sequence, and a
second clear is a no-op: the state after two clears equals the state
after one. -/
theorem clear_all_idempotent (df : List Entry) :
    clear_all df = [] ∧ clear_all (clear_all df) = clear_all df :=
  ⟨rfl, rfl⟩

/-- C3: when the recorded total exceeds 1440 minutes, the summary is the
raw per-name grouping with no synthetic bucket, its minutes sum to the
recorded total, the overflow flag is true, and the displayed DataFrame
is that raw grouping. -/
theorem summarize_overflow (df : List Entry) (h : 1440 < totalMinutes df) :
    get_full_day_schedule df = groupByName df ∧
    sumMinutes (get_full_day_schedule df) = totalMinutes df ∧
    overflow df = true ∧
    display_df df = groupByName df := by
  have hdf : df ≠ [] := by
    intro e
    rw [e] at h
    simp [totalMinutes] at h
  have h1 : get_full_day_schedule df = groupByName df := by
    rw [get_full_day_schedule_spec df hdf, if_pos h]
  have hov : overflow df = true := by
    simp only [overflow, TOTAL_MINUTES_IN_DAY]
    simpa using h
  refine ⟨h1, by rw [h1, sumMinutes_groupByName], hov, ?_⟩
  unfold display_df
  rw [if_pos hov]

theorem summarize_overflow_witness :
    1440 < totalMinutes
      [(⟨"work", 0, 1000, 1000⟩ : Entry), ⟨"work", 0, 1000, 1000⟩] ∧
    (get_full_day_schedule
        [(⟨"work", 0, 1000, 1000⟩ : Entry), ⟨"work", 0, 1000, 1000⟩] =
      groupByName [(⟨"work", 0, 1000, 1000⟩ : Entry), ⟨"work", 0, 1000, 1000⟩] ∧
    sumMinutes (get_full_day_schedule
        [(⟨"work", 0, 1000, 1000⟩ : Entry), ⟨"work", 0, 1000, 1000⟩]) =
      totalMinutes [(⟨"work", 0, 1000, 1000⟩ : Entry), ⟨"work", 0, 1000, 1000⟩] ∧
    overflow [(⟨"work", 0, 1000, 1000⟩ : Entry), ⟨"work", 0, 1000, 1000⟩] = true ∧
    display_df [(⟨"work", 0, 1000, 1000⟩ : Entry), ⟨"work", 0, 1000, 1000⟩] =
      groupByName [(⟨"work", 0, 1000, 1000⟩ : Entry), ⟨"work", 0, 1000, 1000⟩]) :=
  ⟨by decide, summarize_overflow
    [(⟨"work", 0, 1000, 1000⟩ : Entry), ⟨"work", 0, 1000, 1000⟩] (by decide)⟩

/-- C6: for minute-of-day values with `start ≠ end`, the computed
duration is between 1 and 1439, so the `DurationExceeded` branch is
unreachable and every appended entry has a duration of at least one
minute. -/
theorem duration_always_valid (name : String) (s e : Nat) (df : List Entry)
    (hs : s < 1440) (he : e < 1440) (hne : s ≠ e) :
    (∃ d, duration_minutes_of s e = some d ∧ 1 ≤ d ∧ d ≤ 1439) ∧
    add_entry name s e df ≠ Except.error AddError.DurationExceeded ∧
    (∀ df', add_entry name s e df = Except.ok df' →
      ∃ ent, df' = df ++ [ent] ∧ 1 ≤ ent.duration_minutes) := by
  have hd := duration_minutes_of_eq s e hs hne
  have hb1 : 1 ≤ (if s < e then e - s else (1440 - s) + e) := by
    split_ifs with hcase <;> omega
  have hb2 : (if s < e then e - s else (1440 - s) + e) ≤ 1439 := by
    split_ifs with hcase <;> omega
  by_cases hn : name = ""
  · have hadd : add_entry name s e df = Except.error AddError.EmptyName := by
      unfold add_entry
      rw [if_pos hn]
    refine ⟨⟨_, hd, hb1, hb2⟩, by rw [hadd]; simp, ?_⟩
    intro df' hok
    rw [hadd] at hok
    exact absurd hok (by simp)
  · have hok : add_entry name s e df =
        Except.ok (df ++
          [⟨name, s, e, if s < e then e - s else (1440 - s) + e⟩]) :=
      add_entry_ok name s e df hn _ hd
        (by unfold TOTAL_MINUTES_IN_DAY; split_ifs with hcase <;> omega)
    refine ⟨⟨_, hd, hb1, hb2⟩, by rw [hok]; simp, ?_⟩
    intro df' h'
    rw [hok] at h'
    exact ⟨_, (Except.ok.inj h').symm, hb1⟩

theorem duration_always_valid_witness :
    (1439 : Nat) < 1440 ∧ (0 : Nat) < 1440 ∧ (1439 : Nat) ≠ 0 ∧
    ((∃ d, duration_minutes_of 1439 0 = some d ∧ 1 ≤ d ∧ d ≤ 1439) ∧
    add_entry "x" 1439 0 [] ≠ Except.error AddError.DurationExceeded ∧
    (∀ df', add_entry "x" 1439 0 [] = Except.ok df' →
      ∃ ent, df' = [] ++ [ent] ∧ 1 ≤ ent.duration_minutes)) :=
  ⟨by decide, by decide, by decide,
    duration_always_valid "x" 1439 0 [] (by decide) (by decide) (by decide)⟩

/-- C8: the summary is invariant under any permutation of the ledger;
the grouping has no duplicate name, and each bucket carries the summed
minutes of all entries with its name. -/
theorem summarize_aggregation (l l' : List Entry) (h : l.Perm l') :
    get_full_day_schedule l = get_full_day_schedule l' ∧
    ((groupByName l).map Prod.fst).Nodup ∧
    (∀ n m, (n, m) ∈ groupByName l → m = sumFor n l) := by
  refine ⟨get_full_day_schedule_perm h, ?_, ?_⟩
  · have hfst : (groupByName l).map Prod.fst = sortedNames l := by
      simp [groupByName, List.map_map, Function.comp_def]
    rw [hfst]
    exact sortedNames_nodup l
  · intro n m hm
    exact (mem_groupByName.mp hm).2

theorem summarize_aggregation_witness :
    List.Perm [(⟨"work", 540, 600, 60⟩ : Entry), ⟨"work", 840, 900, 60⟩]
      [⟨"work", 840, 900, 60⟩, ⟨"work", 540, 600, 60⟩] ∧
    (get_full_day_schedule
        [(⟨"work", 540, 600, 60⟩ : Entry), ⟨"work", 840, 900, 60⟩] =
      get_full_day_schedule
        [(⟨"work", 840, 900, 60⟩ : Entry), ⟨"work", 540, 600, 60⟩] ∧
    ((groupByName [(⟨"work", 540, 600, 60⟩ : Entry),
        ⟨"work", 840, 900, 60⟩]).map Prod.fst).Nodup ∧
    (∀ n m, (n, m) ∈ groupByName [(⟨"work", 540, 600, 60⟩ : Entry),
        ⟨"work", 840, 900, 60⟩] →
      m = sumFor n [(⟨"work", 540, 600, 60⟩ : Entry),
        ⟨"work", 840, 900, 60⟩])) ∧
    groupByName [(⟨"work", 540, 600, 60⟩ : Entry), ⟨"work", 840, 900, 60⟩] =
      [("work", 120)] :=
  ⟨List.Perm.swap _ _ _,
    summarize_aggregation _ _ (List.Perm.swap _ _ _), by decide⟩

/-- C10 counterexample: an entry literally named "予定なし" is
reachable through `add_entry`, and then the summary shows the
"予定なし" label twice (the user's bucket plus the synthetic one). -/
theorem unplanned_label_cex :
    add_entry "予定なし" 0 60 [] = Except.ok [⟨"予定なし", 0, 60, 60⟩] ∧
    ((get_full_day_schedule [⟨"予定なし", 0, 60, 60⟩]).map
        Prod.fst).count "予定なし" = 2 :=
  ⟨rfl, by decide⟩

/-- C10 (amended): every bucket label is an entry's name or the
synthetic "予定なし" label and every bucket is strictly positive
(entries' durations being positive, as `add_entry` guarantees); the
"予定なし" label appears at most once PROVIDED no entry itself is named
"予定なし". -/
theorem summarize_buckets (df : List Entry)
    (hpos : ∀ e ∈ df, 1 ≤ e.duration_minutes) :
    (∀ p ∈ get_full_day_schedule df,
      (p.1 = "予定なし" ∨ ∃ e ∈ df, e.name = p.1) ∧ 1 ≤ p.2) ∧
    ((∀ e ∈ df, e.name ≠ "予定なし") →
      ((get_full_day_schedule df).map Prod.fst).count "予定なし" ≤ 1) := by
  by_cases hdf : df = []
  · subst hdf
    constructor
    · intro p hp
      rw [show get_full_day_schedule [] = [("予定なし", 1440)] from by decide]
        at hp
      have hp' : p = ("予定なし", 1440) := by simpa using hp
      subst hp'
      exact ⟨Or.inl rfl, by omega⟩
    · intro _
      decide
  · have hgp : ∀ p ∈ groupByName df,
        (p.1 = "予定なし" ∨ ∃ e ∈ df, e.name = p.1) ∧ 1 ≤ p.2 := by
      intro p hp
      obtain ⟨n, m⟩ := p
      obtain ⟨he, hsum⟩ := mem_groupByName.mp hp
      exact ⟨Or.inr he, hsum ▸ one_le_sumFor hpos he⟩
    have hcnt0 : (∀ e ∈ df, e.name ≠ "予定なし") →
        ((groupByName df).map Prod.fst).count "予定なし" = 0 := by
      intro hno
      rw [List.count_eq_zero]
      intro hmem'
      have hfst : (groupByName df).map Prod.fst = sortedNames df := by
        simp [groupByName, List.map_map, Function.comp_def]
      rw [hfst] at hmem'
      obtain ⟨e, he, hne⟩ := mem_sortedNames.mp hmem'
      exact hno e he hne
    rw [get_full_day_schedule_spec df hdf]
    split_ifs with h1 h2
    · exact ⟨hgp, fun hno => by rw [hcnt0 hno]; omega⟩
    · constructor
      · intro p hp
        rcases List.mem_append.mp hp with hp1 | hp2
        · exact hgp p hp1
        · have hp' : p = ("予定なし", 1440 - totalMinutes df) := by
            simpa using hp2
          subst hp'
          exact ⟨Or.inl rfl, by omega⟩
      · intro hno
        rw [List.map_append, List.count_append, hcnt0 hno]
        simp [List.count_cons]
    · exact ⟨hgp, fun hno => by rw [hcnt0 hno]; omega⟩

theorem summarize_buckets_witness :
    (∀ e ∈ [(⟨"work", 540, 600, 60⟩ : Entry)], 1 ≤ e.duration_minutes) ∧
    ((∀ p ∈ get_full_day_schedule [(⟨"work", 540, 600, 60⟩ : Entry)],
      (p.1 = "予定なし" ∨
        ∃ e ∈ [(⟨"work", 540, 600, 60⟩ : Entry)], e.name = p.1) ∧ 1 ≤ p.2) ∧
    ((∀ e ∈ [(⟨"work", 540, 600, 60⟩ : Entry)], e.name ≠ "予定なし") →
      ((get_full_day_schedule [(⟨"work", 540, 600, 60⟩ : Entry)]).map
          Prod.fst).count "予定なし" ≤ 1)) :=
  ⟨by decide, summarize_buckets [(⟨"work", 540, 600, 60⟩ : Entry)] (by decide)⟩

